import Mathlib

/-!
Shallow embedding of the Audio-Transcription-App repository
(src/App.tsx, src/hooks/useGeminiLive.ts, src/components/TranscriptCard.tsx)
and proofs about its behaviour.

Conventions of the embedding:
* React `useState`/`useRef` cells become fields of explicit state records
  (`HookState` for the `useGeminiLive` hook, `AppState` for `App`).
* Calls to the callbacks `onTranscriptionUpdate`, `onTranscriptionComplete`,
  `onError`, and to the browser/SDK teardown primitives
  (`session.close()`, `track.stop()`, `scriptProcessor.disconnect()`,
  `audioContext.close()`), are recorded as an ordered list of `Effect`s.
* JavaScript `number` indices are `Nat`, audio samples are `ℚ`
  (every finite `Float32` value is a rational, and the only arithmetic the
  code performs on a sample — multiplication by 32768, a power of two —
  is exact in binary floating point, so the rational model is faithful),
  16-bit wire samples are `ℤ` with the wrap written out explicitly.
* Fallible externals (API key lookup, `getUserMedia`, file read, the
  generateContent call, `session.close()`) are parameters of type
  `Option`/`Except`/`Bool` describing each outcome the call site handles.
-/

/-- An observable action performed by the hook or the app: a callback
invocation or a teardown call on a browser/SDK resource. -/
inductive Effect where
  | update (text : String)
  | complete (text : String)
  | error (msg : String)
  | closeSession
  | stopTracks
  | disconnectProcessor
  | closeAudioContext
deriving DecidableEq, Repr

/-- True exactly on `Effect.complete` — an `onTranscriptionComplete` call. -/
def Effect.isComplete : Effect → Bool
  | .complete _ => true
  | _ => false

/-- True exactly on `Effect.error` — an `onError` call. -/
def Effect.isError : Effect → Bool
  | .error _ => true
  | _ => false

/-- The `serverContent` field of a `LiveServerMessage` as the `onmessage`
handler reads it: an optional `inputTranscription.text` fragment and the
`turnComplete` flag (JS truthiness of an optional boolean becomes `Bool`). -/
structure ServerContent where
  inputTranscription : Option String
  turnComplete : Bool
deriving DecidableEq, Repr

/-- A server message; `serverContent` may be absent (`message.serverContent?.`). -/
structure LiveServerMessage where
  serverContent : Option ServerContent
deriving DecidableEq, Repr

/-- The `onmessage` callback of `useGeminiLive` (useGeminiLive.ts lines
100–111).  The only mutable state it touches is
`currentInputTranscriptionRef.current`, passed in and returned as `buf`;
callback invocations are returned as effects in call order. -/
def onmessage (buf : String) (m : LiveServerMessage) : String × List Effect :=
  -- `if (message.serverContent?.inputTranscription)`: append the fragment
  -- and report the accumulated string via onTranscriptionUpdate.
  let step1 : String × List Effect :=
    match m.serverContent with
    | some sc =>
      match sc.inputTranscription with
      | some t => (buf ++ t, [Effect.update (buf ++ t)])
      | none => (buf, [])
    | none => (buf, [])
  -- `if (message.serverContent?.turnComplete)`: reset the ref, then call
  -- onTranscriptionComplete with the saved full transcription.
  match m.serverContent with
  | some sc =>
    if sc.turnComplete then ("", step1.2 ++ [Effect.complete step1.1])
    else (step1.1, step1.2)
  | none => (step1.1, step1.2)

/-- Processing a sequence of server messages in arrival order, threading the
transcription ref and concatenating the emitted effects. -/
def processMessages (buf : String) : List LiveServerMessage → String × List Effect
  | [] => (buf, [])
  | m :: ms =>
    let r1 := onmessage buf m
    let r2 := processMessages r1.1 ms
    (r2.1, r1.2 ++ r2.2)

/-- The transcription fragment a message carries, if any. -/
def fragOf (m : LiveServerMessage) : Option String :=
  m.serverContent.bind (·.inputTranscription)

/-- Whether the message carries the turn-complete signal. -/
def hasTurnComplete (m : LiveServerMessage) : Bool :=
  match m.serverContent with
  | some sc => sc.turnComplete
  | none => false

/-- The expected `onTranscriptionUpdate` calls for a fragment sequence
starting from buffer `b`: one update per fragment, each carrying the
concatenation accumulated so far. -/
def accUpdates (b : String) : List String → List Effect
  | [] => []
  | t :: ts => Effect.update (b ++ t) :: accUpdates (b ++ t) ts

/-- A concrete message trace used to instantiate the claim theorems: two
transcription fragments, no turn-complete signal, one empty message. -/
def demoMsgs : List LiveServerMessage :=
  [⟨some ⟨some "Hello ", false⟩⟩, ⟨none⟩, ⟨some ⟨some "world", false⟩⟩]

/-- A concrete message carrying both a fragment and the turn-complete flag. -/
def demoTurnMsg : LiveServerMessage := ⟨some ⟨some "bye", true⟩⟩

/-- The mutable state of the `useGeminiLive` hook: the two `useState` cells
and the four `useRef` cells.  A ref holding a browser object is modelled by
whether it is non-null; `audioContext` additionally records whether the
context's state differs from closed (`some true` = non-null and open,
`some false` = non-null but closed, `none` = null ref). -/
structure HookState where
  isRecording : Bool
  isInitializing : Bool
  sessionActive : Bool
  mediaStream : Bool
  audioContext : Option Bool
  scriptProcessor : Bool
  currentInputTranscription : String
deriving DecidableEq, Repr

/-- `stopAudioProcessing` (useGeminiLive.ts lines 26–39): stop the media
tracks, disconnect the script processor, close the audio context when it is
non-null and not already closed, nulling each ref it tears down. -/
def stopAudioProcessing (s : HookState) : HookState × List Effect :=
  let r1 : HookState × List Effect :=
    if s.mediaStream then ({ s with mediaStream := false }, [Effect.stopTracks])
    else (s, [])
  let r2 : HookState × List Effect :=
    if r1.1.scriptProcessor then
      ({ r1.1 with scriptProcessor := false }, [Effect.disconnectProcessor])
    else (r1.1, [])
  let r3 : HookState × List Effect :=
    match r2.1.audioContext with
    | some true => ({ r2.1 with audioContext := none }, [Effect.closeAudioContext])
    | _ => (r2.1, [])
  (r3.1, r1.2 ++ r2.2 ++ r3.2)

/-- `stop` (useGeminiLive.ts lines 41–60).  `closeOk` records whether
awaiting the session promise and calling `session.close()` succeeded; on
failure the catch block reports the fixed message via `onError`.  The
finally block nulls the session ref, tears down audio, and flushes a
non-empty transcription buffer through `onTranscriptionComplete`. -/
def stop (s : HookState) (closeOk : Bool) : HookState × List Effect :=
  if s.sessionActive = false then (s, [])
  else
    let s1 : HookState := { s with isRecording := false }
    let closeEffs : List Effect :=
      if closeOk then [Effect.closeSession]
      else [Effect.error "Failed to close the connection properly."]
    let r2 := stopAudioProcessing { s1 with sessionActive := false }
    let r3 : HookState × List Effect :=
      if r2.1.currentInputTranscription = "" then (r2.1, [])
      else ({ r2.1 with currentInputTranscription := "" },
            [Effect.complete r2.1.currentInputTranscription])
    (r3.1, closeEffs ++ r2.2 ++ r3.2)

/-- The outcomes of the fallible calls `start` makes before any callback can
run: the `process.env.API_KEY` lookup and `getUserMedia` (an `Except` error
carries the thrown error's message). -/
structure StartEnv where
  apiKey : Option String
  getUserMedia : Except String Unit
deriving Repr

/-- The error message the catch block of `start` would surface for this
environment, if any step throws. -/
def startError (env : StartEnv) : Option String :=
  match env.apiKey with
  | none => some "API_KEY environment variable not set."
  | some _ =>
    match env.getUserMedia with
    | .error e => some e
    | .ok _ => none

/-- `start` (useGeminiLive.ts lines 63–138) up to the synchronous end of the
call: set `isInitializing`, throw when `API_KEY` is missing, acquire the
microphone, create the audio context, store the `ai.live.connect` session
promise.  The catch block reports the message via `onError`, clears both
flags and tears down audio.  (The SDK callbacks `onopen`/`onmessage`/
`onerror` run later and are modelled separately.) -/
def start (s : HookState) (env : StartEnv) : HookState × List Effect :=
  let s0 : HookState := { s with isInitializing := true }
  match env.apiKey with
  | none =>
    let s1 : HookState := { s0 with isInitializing := false, isRecording := false }
    let r := stopAudioProcessing s1
    (r.1, Effect.error "API_KEY environment variable not set." :: r.2)
  | some _ =>
    match env.getUserMedia with
    | .error e =>
      let s1 : HookState := { s0 with isInitializing := false, isRecording := false }
      let r := stopAudioProcessing s1
      (r.1, Effect.error e :: r.2)
    | .ok _ =>
      ({ s0 with mediaStream := true, audioContext := some true,
                 sessionActive := true }, [])

/-- The `onerror` SDK callback (useGeminiLive.ts lines 112–118): report
`Connection error: <message>` via `onError`, clear both flags, tear down
audio processing. -/
def onerror (s : HookState) (msg : String) : HookState × List Effect :=
  let s1 : HookState := { s with isRecording := false, isInitializing := false }
  let r := stopAudioProcessing s1
  (r.1, Effect.error ("Connection error: " ++ msg) :: r.2)

/-- A transcription record (src/types.ts, used by App.tsx and
TranscriptCard.tsx): identifier, text, and source label (the `from` field,
renamed because `from` is a Lean keyword). -/
structure Transcription where
  id : Nat
  text : String
  fromLabel : String
deriving DecidableEq, Repr

/-- The UI mode toggle of `App`. -/
inductive Mode where
  | live
  | file
deriving DecidableEq, Repr

/-- The mutable state of the `App` component: the five `useState` cells plus
the file input element's `value` property (reset by `handleFileUpload`). -/
structure AppState where
  transcripts : List Transcription
  currentTranscription : String
  error : Option String
  mode : Mode
  isProcessingFile : Bool
  fileInputValue : String
deriving DecidableEq, Repr

/-- The character set JavaScript's `String.prototype.trim()` strips
(ECMAScript WhiteSpace and LineTerminator): TAB, LF, VT, FF, CR, space,
NBSP, the Unicode space separators U+1680 and U+2000–U+200A, the line and
paragraph separators U+2028/U+2029, narrow no-break space U+202F, medium
mathematical space U+205F, ideographic space U+3000, and ZWNBSP U+FEFF. -/
def jsTrimWhitespace (c : Char) : Bool :=
  let n := c.toNat
  n == 0x9 || n == 0xA || n == 0xB || n == 0xC || n == 0xD ||
  n == 0x20 || n == 0xA0 || n == 0x1680 ||
  n == 0x2000 || n == 0x2001 || n == 0x2002 || n == 0x2003 ||
  n == 0x2004 || n == 0x2005 || n == 0x2006 || n == 0x2007 ||
  n == 0x2008 || n == 0x2009 || n == 0x200A ||
  n == 0x2028 || n == 0x2029 || n == 0x202F ||
  n == 0x205F || n == 0x3000 || n == 0xFEFF

/-- The truthiness test `if (text.trim())` used by both append sites in
App.tsx: `text.trim()` is non-empty — truthy — exactly when the text
contains at least one character outside `trim()`'s whitespace set. -/
def nonBlank (s : String) : Bool :=
  s.toList.any fun c => !jsTrimWhitespace c

/-- `handleTranscriptionComplete` (App.tsx lines 22–27): append a record
labelled `Live Recording` when the completed text is non-blank after
trimming, then clear the in-progress transcription display. -/
def handleTranscriptionComplete (s : AppState) (now : Nat) (text : String) :
    AppState :=
  let s1 : AppState :=
    if nonBlank text then
      { s with transcripts := s.transcripts ++ [⟨now, text, "Live Recording"⟩] }
    else s
  { s1 with currentTranscription := "" }

/-- `handleTranscriptionUpdate` (App.tsx lines 18–20). -/
def handleTranscriptionUpdate (s : AppState) (text : String) : AppState :=
  { s with currentTranscription := text }

/-- `handleError` (App.tsx lines 29–31). -/
def handleError (s : AppState) (msg : String) : AppState :=
  { s with error := some msg }

/-- The error message `handleFileUpload`'s catch block would surface, if any
step of the try block throws: the `API_KEY` check, the file read
(`toBase64`), or the `generateContent` call (each `Except` error carries the
corresponding thrown error's message). -/
def uploadError (apiKey : Option String) (readResult : Except String String)
    (apiResult : Except String String) : Option String :=
  match apiKey with
  | none => some "API_KEY environment variable not set."
  | some _ =>
    match readResult with
    | .error e => some e
    | .ok _ =>
      match apiResult with
      | .error e => some e
      | .ok _ => none

/-- `handleFileUpload` (App.tsx lines 54–103), from the point where a file
is selected: clear the error, set `isProcessingFile`, run the try block
(API-key check, base64 read, `generateContent`, append a record labelled
with the file's name when the returned text is non-blank), set the error
message in the catch block, and in the finally block clear
`isProcessingFile` and reset the file input's value. -/
def handleFileUpload (s : AppState) (now : Nat) (fileName : String)
    (apiKey : Option String) (readResult : Except String String)
    (apiResult : Except String String) : AppState :=
  let s0 : AppState := { s with error := none, isProcessingFile := true }
  let s1 : AppState :=
    match uploadError apiKey readResult apiResult with
    | some msg => { s0 with error := some msg }
    | none =>
      match apiResult with
      | .ok text =>
        if nonBlank text then
          { s0 with transcripts := s0.transcripts ++ [⟨now, text, fileName⟩] }
        else s0
      | .error _ => s0
  { s1 with isProcessingFile := false, fileInputValue := "" }

/-- The operations of `App` that can touch its state after records exist:
a live-utterance completion (from `onmessage` or the `stop` flush), a live
transcript update, an error report, a mode switch, the `setError(null)` of
`toggleRecording`, and a whole file-upload interaction with its outcome. -/
inductive AppEvent where
  | completeLive (now : Nat) (text : String)
  | updateLive (text : String)
  | errorReport (msg : String)
  | switchMode (m : Mode)
  | toggleClearError
  | fileUpload (now : Nat) (fileName : String) (apiKey : Option String)
      (readResult : Except String String) (apiResult : Except String String)

/-- One `App` state transition per `AppEvent`. -/
def appStep (s : AppState) : AppEvent → AppState
  | .completeLive now text => handleTranscriptionComplete s now text
  | .updateLive text => handleTranscriptionUpdate s text
  | .errorReport msg => handleError s msg
  | .switchMode m => { s with mode := m }
  | .toggleClearError => { s with error := none }
  | .fileUpload now fn key rr ar => handleFileUpload s now fn key rr ar

/-- JavaScript's `ToInt16` conversion, applied when storing into an
`Int16Array`: truncate toward zero, wrap modulo 2^16, interpret the 16-bit
pattern as signed. -/
def toInt16 (q : ℚ) : ℤ :=
  let t : ℤ := if 0 ≤ q then ⌊q⌋ else -⌊-q⌋
  let u : ℤ := t % 65536
  if 32768 ≤ u then u - 65536 else u

/-- The loop of `createPcmBlob` (useGeminiLive.ts lines 146–148):
`for (let i = 0; i < l; i++) int16[i] = data[i] * 32768`, storing through
JavaScript's `Int16Array` conversion. -/
def pcmFill (data : List ℚ) (int16 : List ℤ) (i : Nat) : List ℤ :=
  if h : i < data.length then
    pcmFill data (int16.set i (toInt16 (data.get ⟨i, h⟩ * 32768))) (i + 1)
  else int16
termination_by data.length - i
decreasing_by simp_wf; omega

/-- The `Blob` value `createPcmBlob` returns.  `data` holds the contents of
the `Int16Array`; the byte serialization of `int16.buffer` and the base64
`encode` step (utils/audioUtils.ts, a file not present under src/, described
by the spec only as trivial byte-to-base64 conversion) are elided, as both
are injective re-codings of exactly these 16-bit samples. -/
structure GenBlob where
  data : List ℤ
  mimeType : String
deriving DecidableEq, Repr

/-- `createPcmBlob` (useGeminiLive.ts lines 143–153): a zero-initialised
`Int16Array` of the input's length, filled by the loop, paired with the
fixed mime type. -/
def createPcmBlob (data : List ℚ) : GenBlob :=
  { data := pcmFill data (List.replicate data.length 0) 0
    mimeType := "audio/pcm;rate=16000" }

/-- A concrete hook state with an active session, live audio resources and
a non-empty transcription buffer. -/
def demoActiveState : HookState :=
  { isRecording := true, isInitializing := false, sessionActive := true,
    mediaStream := true, audioContext := some true, scriptProcessor := true,
    currentInputTranscription := "so far" }

/-- A concrete hook state in which no session was ever started. -/
def demoIdleState : HookState :=
  { isRecording := false, isInitializing := false, sessionActive := false,
    mediaStream := false, audioContext := none, scriptProcessor := false,
    currentInputTranscription := "" }

/-- A concrete empty app state. -/
def demoAppState : AppState :=
  { transcripts := [], currentTranscription := "", error := none,
    mode := Mode.live, isProcessingFile := false, fileInputValue := "" }

/-- A concrete failing start environment: the API key is absent. -/
def demoStartEnv : StartEnv := ⟨none, Except.ok ()⟩

theorem foldl_append_init (l : List String) (a b : String) :
    l.foldl (· ++ ·) (a ++ b) = a ++ l.foldl (· ++ ·) b := by
  induction l generalizing b with
  | nil => rfl
  | cons x xs ih => simp only [List.foldl_cons, String.append_assoc, ih]

theorem string_join_cons (t : String) (l : List String) :
    String.join (t :: l) = t ++ String.join l := by
  show List.foldl (· ++ ·) ("" ++ t) l = t ++ List.foldl (· ++ ·) "" l
  rw [show ("" ++ t : String) = t ++ "" by simp, foldl_append_init]

theorem processMessages_no_turn (msgs : List LiveServerMessage) (b : String)
    (h : ∀ m ∈ msgs, hasTurnComplete m = false) :
    processMessages b msgs =
      (b ++ String.join (msgs.filterMap fragOf),
       accUpdates b (msgs.filterMap fragOf)) := by
  induction msgs generalizing b with
  | nil => simp [processMessages, String.join, accUpdates]
  | cons m ms ih =>
    have hm : hasTurnComplete m = false := h m (List.mem_cons_self m ms)
    have hms : ∀ x ∈ ms, hasTurnComplete x = false :=
      fun x hx => h x (List.mem_cons_of_mem m hx)
    match hsc : m.serverContent with
    | none =>
      simp [processMessages, onmessage, hsc, fragOf, ih b hms]
    | some sc =>
      have htc : sc.turnComplete = false := by
        simpa [hasTurnComplete, hsc] using hm
      match hit : sc.inputTranscription with
      | none =>
        simp [processMessages, onmessage, hsc, htc, hit, fragOf, ih b hms]
      | some t =>
        simp [processMessages, onmessage, hsc, htc, hit, fragOf,
          ih (b ++ t) hms, accUpdates, string_join_cons, String.append_assoc]

theorem accUpdates_eq_range (fs : List String) (b : String) :
    accUpdates b fs =
      (List.range fs.length).map
        (fun k => Effect.update (b ++ String.join (fs.take (k + 1)))) := by
  induction fs generalizing b with
  | nil => simp [accUpdates]
  | cons t ts ih =>
    simp only [accUpdates, ih (b ++ t), List.length_cons, List.range_succ_eq_map,
      List.map_cons, List.map_map]
    congr 1
    simp [string_join_cons, String.append_assoc]

/-- C1: starting from an empty buffer (session start or just after a
turn-complete reset), processing any sequence of server messages none of
which carries `turnComplete` leaves the transcription ref equal to the
concatenation, in arrival order, of the received `inputTranscription.text`
fragments, and the emitted effects are exactly one `onTranscriptionUpdate`
per fragment, carrying the concatenation accumulated up to that fragment. -/
theorem c1_live_buffer_accumulates (msgs : List LiveServerMessage)
    (h : ∀ m ∈ msgs, hasTurnComplete m = false) :
    (processMessages "" msgs).1 = String.join (msgs.filterMap fragOf) ∧
    (processMessages "" msgs).2 =
      (List.range (msgs.filterMap fragOf).length).map
        (fun k => Effect.update (String.join ((msgs.filterMap fragOf).take (k + 1)))) := by
  have h1 := processMessages_no_turn msgs "" h
  rw [h1]
  refine ⟨by simp, ?_⟩
  rw [accUpdates_eq_range]
  apply List.map_congr_left
  intro k _
  simp

theorem c1_live_buffer_accumulates_witness :
    (∀ m ∈ demoMsgs, hasTurnComplete m = false) ∧
    (processMessages "" demoMsgs).1 = String.join (demoMsgs.filterMap fragOf) ∧
    (processMessages "" demoMsgs).2 =
      (List.range (demoMsgs.filterMap fragOf).length).map
        (fun k => Effect.update (String.join ((demoMsgs.filterMap fragOf).take (k + 1)))) :=
  ⟨by decide, c1_live_buffer_accumulates demoMsgs (by decide)⟩

/-- C2: a server message carrying `turnComplete` makes `onmessage` reset the
transcription ref to the empty string and emit exactly one
`onTranscriptionComplete` call, as the last effect, carrying the full
accumulated text (the buffer extended by the fragment of the same message,
when it has one). -/
theorem c2_turn_complete_flush (buf : String) (m : LiveServerMessage)
    (sc : ServerContent) (h1 : m.serverContent = some sc)
    (h2 : sc.turnComplete = true) :
    (onmessage buf m).1 = "" ∧
    ((onmessage buf m).2.countP Effect.isComplete) = 1 ∧
    (onmessage buf m).2.getLast? =
      some (Effect.complete (buf ++ sc.inputTranscription.getD "")) := by
  match hit : sc.inputTranscription with
  | none =>
    simp [onmessage, h1, h2, hit, List.countP_cons, Effect.isComplete]
  | some t =>
    simp [onmessage, h1, h2, hit, List.countP_cons, Effect.isComplete]

theorem c2_turn_complete_flush_witness :
    demoTurnMsg.serverContent = some ⟨some "bye", true⟩ ∧
    (⟨some "bye", true⟩ : ServerContent).turnComplete = true ∧
    ((onmessage "good" demoTurnMsg).1 = "" ∧
     ((onmessage "good" demoTurnMsg).2.countP Effect.isComplete) = 1 ∧
     (onmessage "good" demoTurnMsg).2.getLast? =
       some (Effect.complete ("good" ++ (some "bye" : Option String).getD ""))) :=
  ⟨rfl, rfl, c2_turn_complete_flush "good" demoTurnMsg ⟨some "bye", true⟩ rfl rfl⟩

theorem stopAudioProcessing_effects (s : HookState) :
    (stopAudioProcessing s).2.countP Effect.isComplete = 0 ∧
    (stopAudioProcessing s).2.countP Effect.isError = 0 ∧
    (stopAudioProcessing s).1.currentInputTranscription =
      s.currentInputTranscription ∧
    (stopAudioProcessing s).1.sessionActive = s.sessionActive ∧
    (stopAudioProcessing s).1.mediaStream = false ∧
    (stopAudioProcessing s).1.scriptProcessor = false ∧
    (stopAudioProcessing s).1.isRecording = s.isRecording ∧
    (stopAudioProcessing s).1.isInitializing = s.isInitializing ∧
    (stopAudioProcessing s).1.audioContext ≠ some true := by
  obtain ⟨ir, ii, sa, ms, ac, sp, buf⟩ := s
  rcases ac with _ | b
  · cases ms <;> cases sp <;>
      simp [stopAudioProcessing, Effect.isComplete, Effect.isError]
  · cases b <;> cases ms <;> cases sp <;>
      simp [stopAudioProcessing, Effect.isComplete, Effect.isError]

/-- C7: on a state with an active session and live audio resources, `stop`
performs exactly the teardown: it closes the streaming session, stops the
media tracks, disconnects the script processor, closes the audio context —
and nothing else beyond flushing a pending utterance — and afterwards all
four refs are null and `isRecording` is false. -/
theorem c7_stop_teardown (s : HookState)
    (h1 : s.sessionActive = true) (h2 : s.mediaStream = true)
    (h3 : s.scriptProcessor = true) (h4 : s.audioContext = some true) :
    (stop s true).2 =
      [Effect.closeSession, Effect.stopTracks, Effect.disconnectProcessor,
       Effect.closeAudioContext] ++
      (if s.currentInputTranscription = "" then []
       else [Effect.complete s.currentInputTranscription]) ∧
    (stop s true).1.sessionActive = false ∧
    (stop s true).1.mediaStream = false ∧
    (stop s true).1.scriptProcessor = false ∧
    (stop s true).1.audioContext = none ∧
    (stop s true).1.isRecording = false := by
  obtain ⟨ir, ii, sa, ms, ac, sp, buf⟩ := s
  simp only at h1 h2 h3 h4
  subst h1 h2 h3 h4
  by_cases hb : buf = "" <;> simp [stop, stopAudioProcessing, hb]

theorem c7_stop_teardown_witness :
    demoActiveState.sessionActive = true ∧
    demoActiveState.mediaStream = true ∧
    demoActiveState.scriptProcessor = true ∧
    demoActiveState.audioContext = some true ∧
    ((stop demoActiveState true).2 =
      [Effect.closeSession, Effect.stopTracks, Effect.disconnectProcessor,
       Effect.closeAudioContext] ++
      (if demoActiveState.currentInputTranscription = "" then []
       else [Effect.complete demoActiveState.currentInputTranscription]) ∧
     (stop demoActiveState true).1.sessionActive = false ∧
     (stop demoActiveState true).1.mediaStream = false ∧
     (stop demoActiveState true).1.scriptProcessor = false ∧
     (stop demoActiveState true).1.audioContext = none ∧
     (stop demoActiveState true).1.isRecording = false) :=
  ⟨rfl, rfl, rfl, rfl, c7_stop_teardown demoActiveState rfl rfl rfl rfl⟩

/-- C8: `stop` on a state with no session (`sessionPromiseRef.current`
null) returns immediately, changing nothing and emitting no callback or
teardown effect. -/
theorem c8_stop_idle_noop (s : HookState) (closeOk : Bool)
    (h : s.sessionActive = false) : stop s closeOk = (s, []) := by
  simp [stop, h]

theorem c8_stop_idle_noop_witness :
    demoIdleState.sessionActive = false ∧
    stop demoIdleState true = (demoIdleState, []) :=
  ⟨rfl, c8_stop_idle_noop demoIdleState true rfl⟩

/-- C9: `stop` on an active session flushes the in-progress utterance: a
non-empty buffer is delivered through exactly one `onTranscriptionComplete`
(the final effect) and reset to empty; an empty buffer triggers no
`onTranscriptionComplete`; both hold whether or not closing the session
raised an error. -/
theorem c9_stop_flushes_buffer (s : HookState) (closeOk : Bool)
    (h : s.sessionActive = true) :
    (s.currentInputTranscription ≠ "" →
      (stop s closeOk).2.getLast? =
        some (Effect.complete s.currentInputTranscription) ∧
      (stop s closeOk).2.countP Effect.isComplete = 1 ∧
      (stop s closeOk).1.currentInputTranscription = "") ∧
    (s.currentInputTranscription = "" →
      (stop s closeOk).2.countP Effect.isComplete = 0) := by
  obtain ⟨ir, ii, sa, ms, ac, sp, buf⟩ := s
  simp only at h
  subst h
  rcases ac with _ | b
  · cases ms <;> cases sp <;> cases closeOk <;> by_cases hb : buf = "" <;>
      simp [stop, stopAudioProcessing, hb, Effect.isComplete]
  · cases b <;> cases ms <;> cases sp <;> cases closeOk <;>
      by_cases hb : buf = "" <;>
      simp [stop, stopAudioProcessing, hb, Effect.isComplete]

theorem c9_stop_flushes_buffer_witness :
    demoActiveState.sessionActive = true ∧
    demoActiveState.currentInputTranscription ≠ "" ∧
    ((stop demoActiveState false).2.getLast? =
       some (Effect.complete demoActiveState.currentInputTranscription) ∧
     (stop demoActiveState false).2.countP Effect.isComplete = 1 ∧
     (stop demoActiveState false).1.currentInputTranscription = "") :=
  ⟨rfl, by decide,
   (c9_stop_flushes_buffer demoActiveState false rfl).1 (by decide)⟩

/-- C6: every failure in starting a live session (including the missing
`API_KEY`, whose message is `API_KEY environment variable not set.`) and
every failure in transcribing an uploaded file is caught at its call site
and surfaced as exactly one user-visible message — one `onError` call on
the live path, one `setError` on the file path — with no retry; the live
failure paths (the `start` catch block and the SDK `onerror` callback) also
clear `isRecording` and `isInitializing` and release the audio resources. -/
theorem c6_errors_surfaced (s : HookState) (env : StartEnv) (msg : String)
    (h1 : startError env = some msg)
    (sa : AppState) (now : Nat) (fn : String) (key : Option String)
    (rr ar : Except String String) (msg2 : String)
    (h2 : uploadError key rr ar = some msg2)
    (s2 : HookState) (cmsg : String) :
    ((start s env).2.countP Effect.isError = 1 ∧
     Effect.error msg ∈ (start s env).2 ∧
     (start s env).1.isRecording = false ∧
     (start s env).1.isInitializing = false ∧
     (start s env).1.mediaStream = false ∧
     (start s env).1.scriptProcessor = false ∧
     (start s env).1.audioContext ≠ some true) ∧
    ((handleFileUpload sa now fn key rr ar).error = some msg2 ∧
     (handleFileUpload sa now fn key rr ar).transcripts = sa.transcripts) ∧
    ((onerror s2 cmsg).2.countP Effect.isError = 1 ∧
     Effect.error ("Connection error: " ++ cmsg) ∈ (onerror s2 cmsg).2 ∧
     (onerror s2 cmsg).1.isRecording = false ∧
     (onerror s2 cmsg).1.isInitializing = false ∧
     (onerror s2 cmsg).1.mediaStream = false ∧
     (onerror s2 cmsg).1.scriptProcessor = false) := by
  refine ⟨?_, ⟨?_, ?_⟩, ?_⟩
  · obtain ⟨key0, gum⟩ := env
    have hs := stopAudioProcessing_effects
      { s with isInitializing := false, isRecording := false }
    rcases key0 with _ | k
    · simp only [startError, Option.some.injEq] at h1
      subst h1
      simp [start, List.countP_cons, Effect.isError, hs.1, hs.2.1, hs.2.2.1,
        hs.2.2.2.1, hs.2.2.2.2.1, hs.2.2.2.2.2.1, hs.2.2.2.2.2.2.1,
        hs.2.2.2.2.2.2.2]
    · rcases gum with e | u
      · simp only [startError, Option.some.injEq] at h1
        subst h1
        simp [start, List.countP_cons, Effect.isError, hs.1, hs.2.1,
          hs.2.2.1, hs.2.2.2.1, hs.2.2.2.2.1, hs.2.2.2.2.2.1,
          hs.2.2.2.2.2.2.1, hs.2.2.2.2.2.2.2]
      · simp [startError] at h1
  · simp [handleFileUpload, h2]
  · simp [handleFileUpload, h2]
  · have hs := stopAudioProcessing_effects
      { s2 with isRecording := false, isInitializing := false }
    simp [onerror, List.countP_cons, Effect.isError, hs.1, hs.2.1,
      hs.2.2.1, hs.2.2.2.1, hs.2.2.2.2.1, hs.2.2.2.2.2.1,
      hs.2.2.2.2.2.2.1, hs.2.2.2.2.2.2.2]

theorem c6_errors_surfaced_witness :
    startError demoStartEnv = some "API_KEY environment variable not set." ∧
    uploadError none (Except.ok "b64") (Except.ok "text") =
      some "API_KEY environment variable not set." ∧
    (((start demoIdleState demoStartEnv).2.countP Effect.isError = 1 ∧
      Effect.error "API_KEY environment variable not set." ∈
        (start demoIdleState demoStartEnv).2 ∧
      (start demoIdleState demoStartEnv).1.isRecording = false ∧
      (start demoIdleState demoStartEnv).1.isInitializing = false ∧
      (start demoIdleState demoStartEnv).1.mediaStream = false ∧
      (start demoIdleState demoStartEnv).1.scriptProcessor = false ∧
      (start demoIdleState demoStartEnv).1.audioContext ≠ some true) ∧
     ((handleFileUpload demoAppState 0 "take.mp3" none (Except.ok "b64")
         (Except.ok "text")).error =
        some "API_KEY environment variable not set." ∧
      (handleFileUpload demoAppState 0 "take.mp3" none (Except.ok "b64")
         (Except.ok "text")).transcripts = demoAppState.transcripts) ∧
     ((onerror demoActiveState "boom").2.countP Effect.isError = 1 ∧
      Effect.error ("Connection error: " ++ "boom") ∈
        (onerror demoActiveState "boom").2 ∧
      (onerror demoActiveState "boom").1.isRecording = false ∧
      (onerror demoActiveState "boom").1.isInitializing = false ∧
      (onerror demoActiveState "boom").1.mediaStream = false ∧
      (onerror demoActiveState "boom").1.scriptProcessor = false)) :=
  ⟨rfl, rfl,
   c6_errors_surfaced demoIdleState demoStartEnv _ rfl demoAppState 0 "take.mp3"
     none (Except.ok "b64") (Except.ok "text") _ rfl demoActiveState "boom"⟩

/-- C10: `handleFileUpload` restores its UI state in every outcome —
`isProcessingFile` ends false and the file input's value ends empty — and
on any failure (missing API key, read failure, API failure) the transcripts
list is exactly what it was before the upload and the failure's message is
surfaced; a blank transcription also leaves the list unchanged. -/
theorem c10_upload_atomic (s : AppState) (now : Nat) (fn : String)
    (key : Option String) (rr ar : Except String String) :
    (handleFileUpload s now fn key rr ar).isProcessingFile = false ∧
    (handleFileUpload s now fn key rr ar).fileInputValue = "" ∧
    (∀ msg, uploadError key rr ar = some msg →
      (handleFileUpload s now fn key rr ar).transcripts = s.transcripts ∧
      (handleFileUpload s now fn key rr ar).error = some msg) ∧
    (∀ text, ar = Except.ok text → nonBlank text = false →
      (handleFileUpload s now fn key rr ar).transcripts = s.transcripts) := by
  refine ⟨?_, ?_, ?_, ?_⟩
  · rcases h : uploadError key rr ar with _ | msg
    · rcases ar with e | text
      · simp [uploadError] at h
        rcases key with _ | k
        · simp [uploadError] at h
        · rcases rr with e2 | b
          · simp [uploadError] at h
          · simp [handleFileUpload, uploadError] at h ⊢
      · cases ht : nonBlank text <;> simp [handleFileUpload, h, ht]
    · simp [handleFileUpload, h]
  · rcases h : uploadError key rr ar with _ | msg
    · rcases ar with e | text
      · rcases key with _ | k
        · simp [uploadError] at h
        · rcases rr with e2 | b
          · simp [uploadError] at h
          · simp [uploadError] at h
      · cases ht : nonBlank text <;> simp [handleFileUpload, h, ht]
    · simp [handleFileUpload, h]
  · intro msg h
    simp [handleFileUpload, h]
  · intro text har ht
    subst har
    rcases h : uploadError key rr (Except.ok text) with _ | msg
    · simp [handleFileUpload, h, ht]
    · simp [handleFileUpload, h]

theorem c10_upload_atomic_witness :
    uploadError (some "k") (Except.error "read failed") (Except.ok "t") =
      some "read failed" ∧
    ((handleFileUpload demoAppState 7 "a.wav" (some "k")
        (Except.error "read failed") (Except.ok "t")).isProcessingFile = false ∧
     (handleFileUpload demoAppState 7 "a.wav" (some "k")
        (Except.error "read failed") (Except.ok "t")).fileInputValue = "" ∧
     (handleFileUpload demoAppState 7 "a.wav" (some "k")
        (Except.error "read failed") (Except.ok "t")).transcripts =
       demoAppState.transcripts ∧
     (handleFileUpload demoAppState 7 "a.wav" (some "k")
        (Except.error "read failed") (Except.ok "t")).error =
       some "read failed") :=
  ⟨rfl,
   (c10_upload_atomic demoAppState 7 "a.wav" (some "k")
      (Except.error "read failed") (Except.ok "t")).1,
   (c10_upload_atomic demoAppState 7 "a.wav" (some "k")
      (Except.error "read failed") (Except.ok "t")).2.1,
   ((c10_upload_atomic demoAppState 7 "a.wav" (some "k")
      (Except.error "read failed") (Except.ok "t")).2.2.1 "read failed" rfl).1,
   ((c10_upload_atomic demoAppState 7 "a.wav" (some "k")
      (Except.error "read failed") (Except.ok "t")).2.2.1 "read failed" rfl).2⟩

/-- C4: the transcripts list is append-only across every operation of the
app — live completion, live update, error, mode switch, the
`setError(null)` of the record button, and a whole file upload of any
outcome — so every previously stored record keeps its identifier, text and
source label, and no record is removed or reordered. -/
theorem c4_transcripts_append_only (s : AppState) (e : AppEvent) :
    ∃ rest, (appStep s e).transcripts = s.transcripts ++ rest := by
  cases e with
  | completeLive now text =>
    cases h : nonBlank text
    · exact ⟨[], by simp [appStep, handleTranscriptionComplete, h]⟩
    · exact ⟨[⟨now, text, "Live Recording"⟩],
        by simp [appStep, handleTranscriptionComplete, h]⟩
  | updateLive text => exact ⟨[], by simp [appStep, handleTranscriptionUpdate]⟩
  | errorReport msg => exact ⟨[], by simp [appStep, handleError]⟩
  | switchMode m => exact ⟨[], by simp [appStep]⟩
  | toggleClearError => exact ⟨[], by simp [appStep]⟩
  | fileUpload now fn key rr ar =>
    rcases h : uploadError key rr ar with _ | msg
    · rcases ar with e2 | text
      · rcases key with _ | k
        · simp [uploadError] at h
        · rcases rr with e3 | b
          · simp [uploadError] at h
          · simp [uploadError] at h
      · cases ht : nonBlank text
        · exact ⟨[], by simp [appStep, handleFileUpload, h, ht]⟩
        · exact ⟨[⟨now, text, fn⟩], by simp [appStep, handleFileUpload, h, ht]⟩
    · exact ⟨[], by simp [appStep, handleFileUpload, h]⟩

/-- C3, counterexample: a live recording session that completes with
whitespace-only text creates no record at all — `handleTranscriptionComplete`
guards on `text.trim()`, so the display list stays empty instead of gaining
a record.  The same guard sits on the file-upload path. -/
theorem c3_counterexample :
    (handleTranscriptionComplete demoAppState 5 " ").transcripts = [] ∧
    ¬ (∃ r, (handleTranscriptionComplete demoAppState 5 " ").transcripts =
          demoAppState.transcripts ++ [r]) := by
  have h0 : (handleTranscriptionComplete demoAppState 5 " ").transcripts = [] := by
    decide
  refine ⟨h0, ?_⟩
  rintro ⟨r, hr⟩
  rw [h0] at hr
  simp [demoAppState] at hr

/-- C3 (amended): a transcription record is created when a recording
session or a file upload completes with non-blank text (non-empty after
trimming whitespace), and it is appended to the end of the display list,
labelled `Live Recording` for live sessions and with the file's name for
uploads. -/
theorem c3_record_created (s : AppState) (now : Nat) (text : String)
    (h1 : nonBlank text = true) (s2 : AppState) (now2 : Nat)
    (fn key b64 ftext : String) (h2 : nonBlank ftext = true) :
    (handleTranscriptionComplete s now text).transcripts =
      s.transcripts ++ [⟨now, text, "Live Recording"⟩] ∧
    (handleFileUpload s2 now2 fn (some key) (Except.ok b64)
        (Except.ok ftext)).transcripts =
      s2.transcripts ++ [⟨now2, ftext, fn⟩] := by
  constructor
  · simp [handleTranscriptionComplete, h1]
  · simp [handleFileUpload, uploadError, h2]

theorem c3_record_created_witness :
    nonBlank "hi there" = true ∧ nonBlank "note" = true ∧
    ((handleTranscriptionComplete demoAppState 3 "hi there").transcripts =
       demoAppState.transcripts ++ [⟨3, "hi there", "Live Recording"⟩] ∧
     (handleFileUpload demoAppState 4 "memo.mp3" (some "k") (Except.ok "b64")
        (Except.ok "note")).transcripts =
       demoAppState.transcripts ++ [⟨4, "note", "memo.mp3"⟩]) :=
  ⟨by decide, by decide,
   c3_record_created demoAppState 3 "hi there" (by decide) demoAppState 4
     "memo.mp3" "k" "b64" "note" (by decide)⟩

theorem pcmFill_spec (data : List ℚ) (int16 : List ℤ) (i : Nat)
    (hlen : int16.length = data.length) :
    pcmFill data int16 i =
      int16.take i ++ (data.drop i).map (fun x => toInt16 (x * 32768)) := by
  rw [pcmFill]
  by_cases h : i < data.length
  · rw [dif_pos h]
    rw [pcmFill_spec data _ (i + 1) (by simp [hlen])]
    have hi : i < int16.length := by omega
    rw [List.set_eq_take_cons_drop _ hi]
    rw [List.drop_eq_getElem_cons h]
    have htake : (int16.take i ++
        toInt16 (data.get ⟨i, h⟩ * 32768) :: int16.drop (i + 1)).take (i + 1) =
        int16.take i ++ [toInt16 (data.get ⟨i, h⟩ * 32768)] := by
      rw [List.take_append_eq_append_take]
      have h1 : (int16.take i).length = i := by
        simp [List.length_take]; omega
      rw [List.take_of_length_le (by omega), h1]
      simp
    rw [htake, List.append_assoc, List.map_cons, List.singleton_append,
      List.get_eq_getElem]
  · rw [dif_neg h]
    rw [List.drop_eq_nil_of_le (by omega), List.take_of_length_le (by omega)]
    simp
termination_by data.length - i
decreasing_by simp_wf; omega

/-- C5: `createPcmBlob` encodes sample-by-sample — the output carries one
16-bit integer per input sample, each the input sample multiplied by 32768
under JavaScript's `Int16Array` store conversion (truncate toward zero,
wrap modulo 2^16, reinterpret as signed, so a sample of exactly 1.0 becomes
-32768), and the mime type is always `audio/pcm;rate=16000`. -/
theorem c5_createPcmBlob_spec (d : List ℚ) :
    (createPcmBlob d).data = d.map (fun x => toInt16 (x * 32768)) ∧
    (createPcmBlob d).data.length = d.length ∧
    (createPcmBlob d).mimeType = "audio/pcm;rate=16000" ∧
    toInt16 ((1 : ℚ) * 32768) = -32768 := by
  have h := pcmFill_spec d (List.replicate d.length 0) 0 (by simp)
  refine ⟨?_, ?_, rfl, ?_⟩
  · simpa [createPcmBlob] using h
  · simp [createPcmBlob, h]
  · have h1 : ((1 : ℚ) * 32768) = ((32768 : ℤ) : ℚ) := by norm_num
    rw [toInt16, h1]
    norm_num
